import Mathlib

/-!
Verification of the retrieval engine in `search-person-v2.py` (repository
`Mejtar/Data-lab`, file `Data-playground/Prototypes/Scrapping and web/`).

Python strings are modelled as `List Char`, floating point durations as `ℚ`,
fallible functions as `Except`, the network as explicit oracles, and the
side effects of the async code (HTTP GETs, backoff sleeps, robots.txt
fetches) as explicit event traces.  Every definition is translated from the
source file; external library primitives (BeautifulSoup nodes,
`urllib.robotparser`, `urllib.parse`) are modelled by small executable
counterparts restricted to what the source uses.
-/

set_option maxHeartbeats 1000000

namespace DataLab

/-- Convert a Lean string literal to the `List Char` model of Python strings. -/
def str (s : String) : List Char := s.toList

/-- Characters stripped by Python `str.strip()` (whitespace, ASCII range plus
the two Latin-1 space characters that `str.isspace` accepts). -/
def pyIsSpace (c : Char) : Bool :=
  c == ' ' || c == '\t' || c == '\n' || c == '\r' ||
  c == Char.ofNat 11 || c == Char.ofNat 12 || c == Char.ofNat 28 ||
  c == Char.ofNat 29 || c == Char.ofNat 30 || c == Char.ofNat 31 ||
  c == Char.ofNat 133 || c == Char.ofNat 160

/-- Python `s.strip()`: drop whitespace from both ends. -/
def pyStrip (s : List Char) : List Char :=
  ((s.dropWhile pyIsSpace).reverse.dropWhile pyIsSpace).reverse

/-- Characters matched by the source's control-character pattern
`[\x00-\x1f\x7f]` (sanitize_query, line 97). -/
def isCtrlChar (c : Char) : Bool :=
  c.toNat ≤ 31 || c.toNat == 127

/-- Python `pat in s` substring test. -/
def isSub (pat : List Char) (s : List Char) : Bool :=
  if pat.isPrefixOf s then true
  else match s with
    | [] => false
    | _ :: t => isSub pat t

/-- Fueled worker for Python `s.replace(pat, rep)` (all occurrences, left to
right, non-overlapping).  The fuel is the length of the subject string; each
step consumes at least one character, so the fuel never runs out when the
function is entered through `replaceAll`. -/
def replaceAllGo (pat rep : List Char) : Nat → List Char → List Char
  | 0, s => s
  | _ + 1, [] => []
  | fuel + 1, c :: t =>
    if pat ≠ [] ∧ pat.isPrefixOf (c :: t) then
      rep ++ replaceAllGo pat rep fuel ((c :: t).drop pat.length)
    else
      c :: replaceAllGo pat rep fuel t

/-- Python `s.replace(pat, rep)` for a non-empty pattern. -/
def replaceAll (pat rep s : List Char) : List Char :=
  replaceAllGo pat rep s.length s

/-- Uppercase hexadecimal digit, as produced by `urllib.parse.quote`. -/
def hexDigit (n : Nat) : Char := (str "0123456789ABCDEF").getD n '0'

/-- One percent-encoded byte, e.g. `%2F`. -/
def percentEnc (b : Nat) : List Char := ['%', hexDigit (b / 16), hexDigit (b % 16)]

/-- UTF-8 bytes of one character (used by `quote_plus` for unsafe characters). -/
def utf8Bytes (c : Char) : List Nat :=
  let n := c.toNat
  if n < 128 then [n]
  else if n < 2048 then [192 + n / 64, 128 + n % 64]
  else if n < 65536 then [224 + n / 4096, 128 + (n / 64) % 64, 128 + n % 64]
  else [240 + n / 262144, 128 + (n / 4096) % 64, 128 + (n / 64) % 64, 128 + n % 64]

/-- `urllib.parse.quote_plus` on one character: space becomes `+`, ASCII
alphanumerics and `_.-~` stay, everything else is percent-encoded bytewise. -/
def quotePlusChar (c : Char) : List Char :=
  if c = ' ' then ['+']
  else if c.isAlphanum || c == '_' || c == '.' || c == '-' || c == '~' then [c]
  else ((utf8Bytes c).map percentEnc).flatten

/-- `urllib.parse.quote_plus` over a whole string. -/
def quotePlus (s : List Char) : List Char := (s.map quotePlusChar).flatten

/-- `urllib.parse.urlencode({'q': query})` as used by `build_url` (line 141):
the key `q` is already safe, so the result is `q=` followed by the
`quote_plus`-encoded query. -/
def urlencodeQ (query : List Char) : List Char := str "q=" ++ quotePlus query

/-- Model of `sanitize_query` (source lines 86-98): strip whitespace, reject
the empty result, truncate to 200 characters, then replace the control
characters `[\x00-\x1f\x7f]` by spaces.  The `None` input path is outside the
string model; `ValueError` is an `Except.error`. -/
def sanitize_query (q : List Char) : Except (List Char) (List Char) :=
  let q1 := pyStrip q
  if q1 = [] then Except.error (str "query vacío")
  else
    let q2 := if 200 < q1.length then q1.take 200 else q1
    Except.ok (q2.map fun c => if isCtrlChar c then ' ' else c)

/-- The dangerous leading characters of `SAFE_CSV_PREFIXES` (source line 49). -/
def SAFE_CSV_PREFIXES : List Char := ['+', '-', '=', '@', '\t']

/-- The ASCII single-quote character. -/
def singleQuote : Char := Char.ofNat 39

/-- Model of `csv_safe` (source lines 101-107): a falsy (empty) value is
returned as is; a value whose first character is in `SAFE_CSV_PREFIXES` gets
a leading single quote; anything else is unchanged. -/
def csv_safe (text : List Char) : List Char :=
  match text with
  | [] => []
  | c :: t => if c ∈ SAFE_CSV_PREFIXES then singleQuote :: c :: t else c :: t

/-- Model of `build_url` (source lines 137-153).  A template without the
`{query}` placeholder raises `ValueError`; a template containing `q={` gets
the raw query substituted for the placeholder; otherwise the placeholder is
removed and a percent-encoded `q=...` pair is appended. -/
def build_url (template query : List Char) : Except (List Char) (List Char) :=
  if isSub (str "\x7bquery\x7d") template = false then
    Except.error (str "Template inválida: " ++ template)
  else
    let encoded := urlencodeQ query
    if isSub (str "q=\x7b") template then
      Except.ok (replaceAll (str "\x7bquery\x7d") query template)
    else
      let base := replaceAll (str "\x7bquery\x7d") [] template
      if '?' ∈ base then
        if base.getLast? = some '?' ∨ base.getLast? = some '&' then
          Except.ok (base ++ encoded)
        else
          Except.ok (base ++ '&' :: encoded)
      else
        Except.ok (base ++ '?' :: encoded)

/-- Modelled from the claim's wording for C3 only: the claim speaks of a
query being "empty after trimming control characters"; this trims the
control characters of the source's `[\x00-\x1f\x7f]` class from both ends. -/
def specTrimControl (s : List Char) : List Char :=
  ((s.dropWhile isCtrlChar).reverse.dropWhile isCtrlChar).reverse

/-- Split a string at the first occurrence of `pat`, returning the parts
before and after it, or `none` when `pat` does not occur. -/
def breakOn (pat : List Char) : List Char → Option (List Char × List Char)
  | [] => if pat.isPrefixOf [] then some ([], []) else none
  | c :: t =>
    if pat.isPrefixOf (c :: t) then some ([], (c :: t).drop pat.length)
    else match breakOn pat t with
      | some (pre, post) => some (c :: pre, post)
      | none => none

/-- The scheme, network location and path of a URL, as `urllib.parse.urlparse`
produces them for the `scheme://host/path` URLs this scraper builds.  `none`
when the scheme or the host is missing (the case the source treats as
"always allowed"). -/
def urlSplit (url : List Char) : Option (List Char × List Char × List Char) :=
  match breakOn (str "://") url with
  | none => none
  | some (scheme, rest) =>
    let host := rest.takeWhile fun c => !(c == '/' || c == '?' || c == '#')
    let path := rest.drop host.length
    if scheme = [] ∨ host = [] then none else some (scheme, host, path)

/-- The path component a robots rule is matched against (default `/`). -/
def urlPath (url : List Char) : List Char :=
  match urlSplit url with
  | some (_, _, p) => if p = [] then str "/" else p
  | none => if url = [] then str "/" else url

/-- Python `str.lower()` on the characters appearing in robots files. -/
def toLower (s : List Char) : List Char := s.map Char.toLower

/-- Worker for `splitlines`, with the current line accumulated reversed. -/
def splitlinesGo (cur : List Char) : List Char → List (List Char)
  | [] => if cur = [] then [] else [cur.reverse]
  | '\r' :: '\n' :: t => cur.reverse :: splitlinesGo [] t
  | '\r' :: t => cur.reverse :: splitlinesGo [] t
  | '\n' :: t => cur.reverse :: splitlinesGo [] t
  | c :: t => splitlinesGo (c :: cur) t

/-- Python `str.splitlines()` restricted to the usual line terminators. -/
def splitlines (s : List Char) : List (List Char) := splitlinesGo [] s

/-- One `Disallow`/`Allow` rule of a robots file (library model of
`urllib.robotparser.RuleLine`; path percent-(un)quoting is the identity on
the paths this development uses). -/
structure RuleLine where
  allow : Bool
  path : List Char
deriving DecidableEq

/-- One user-agent group of a robots file (library model of
`urllib.robotparser.Entry`). -/
structure RobotsEntry where
  agents : List (List Char)
  rules : List RuleLine
deriving DecidableEq

/-- Library model of `urllib.robotparser.RobotFileParser` after `parse` ran:
the named entries and the `*` default entry. -/
structure RobotFileParser where
  entries : List RobotsEntry
  defaultEntry : Option RobotsEntry
deriving DecidableEq

/-- `RuleLine.__init__`: an empty `Disallow` path means "allow all". -/
def mkRuleLine (path : List Char) (allow : Bool) : RuleLine :=
  if path = [] ∧ allow = false then ⟨true, path⟩ else ⟨allow, path⟩

/-- Intermediate state of `RobotFileParser.parse`'s line loop. -/
structure RobotsParseSt where
  state : Nat
  agents : List (List Char)
  rules : List RuleLine
  entries : List RobotsEntry
  defaultEntry : Option RobotsEntry

/-- `RobotFileParser._add_entry` followed by starting a fresh entry. -/
def flushEntry (st : RobotsParseSt) : RobotsParseSt :=
  let e : RobotsEntry := ⟨st.agents, st.rules⟩
  if str "*" ∈ e.agents then
    match st.defaultEntry with
    | none => { st with defaultEntry := some e, agents := [], rules := [] }
    | some _ => { st with agents := [], rules := [] }
  else { st with entries := st.entries ++ [e], agents := [], rules := [] }

/-- Drop the comment part of a robots line (`line[:line.find("#")]`). -/
def stripComment (l : List Char) : List Char := l.takeWhile (· != '#')

/-- One iteration of the `RobotFileParser.parse` line loop. -/
def robotsParseLine (st0 : RobotsParseSt) (line : List Char) : RobotsParseSt :=
  let st :=
    if line = [] then
      if st0.state = 1 then { st0 with agents := [], rules := [], state := 0 }
      else if st0.state = 2 then { flushEntry st0 with state := 0 }
      else st0
    else st0
  let l2 := pyStrip (stripComment line)
  if l2 = [] then st
  else
    match breakOn (str ":") l2 with
    | none => st
    | some (k, v) =>
      let key := toLower (pyStrip k)
      let value := pyStrip v
      if key = str "user-agent" then
        let st2 := if st.state = 2 then flushEntry st else st
        { st2 with agents := st2.agents ++ [value], state := 1 }
      else if key = str "disallow" then
        if st.state ≠ 0 then
          { st with rules := st.rules ++ [mkRuleLine value false], state := 2 }
        else st
      else if key = str "allow" then
        if st.state ≠ 0 then
          { st with rules := st.rules ++ [mkRuleLine value true], state := 2 }
        else st
      else st

/-- Library model of `RobotFileParser.parse` over the lines of a robots
document.  `parse []` leaves no entries, which is the permissive state. -/
def RobotFileParser.parse (lines : List (List Char)) : RobotFileParser :=
  let st := lines.foldl robotsParseLine ⟨0, [], [], [], none⟩
  let st2 := if st.state = 2 then flushEntry st else st
  ⟨st2.entries, st2.defaultEntry⟩

/-- `Entry.applies_to`: the agent part before `/`, lowercased, matched by
`*` or by substring containment. -/
def RobotsEntry.appliesTo (e : RobotsEntry) (ua : List Char) : Bool :=
  let ua0 := toLower (((breakOn (str "/") ua).map Prod.fst).getD ua)
  e.agents.any fun a => a == str "*" || isSub (toLower a) ua0

/-- `RuleLine.applies_to`: `*` or path-prefix match. -/
def RuleLine.appliesTo (r : RuleLine) (path : List Char) : Bool :=
  r.path == str "*" || r.path.isPrefixOf path

/-- `Entry.allowance`: the first applicable rule decides; default allow. -/
def RobotsEntry.allowance (e : RobotsEntry) (path : List Char) : Bool :=
  match e.rules.find? (fun r => r.appliesTo path) with
  | some r => r.allow
  | none => true

/-- `RobotFileParser.can_fetch` after a `parse` call: the first entry naming
the agent decides, else the `*` entry, else allow. -/
def canFetch (rp : RobotFileParser) (ua url : List Char) : Bool :=
  let path := urlPath url
  match rp.entries.find? (fun e => e.appliesTo ua) with
  | some e => e.allowance path
  | none =>
    match rp.defaultEntry with
    | some e => e.allowance path
    | none => true

/-- Result of the robots.txt GET issued by `RobotsCache.allowed`. -/
inductive RobotsNetResult where
  | status (code : Nat) (text : List Char)
  | netError
deriving DecidableEq

/-- The parser the source caches for a given robots.txt fetch result:
HTTP 200 parses the body, any other status or a network error parses the
empty document (lines 183-192). -/
def parseNet : RobotsNetResult → RobotFileParser
  | RobotsNetResult.status c t =>
    if c = 200 then RobotFileParser.parse (splitlines t) else RobotFileParser.parse []
  | RobotsNetResult.netError => RobotFileParser.parse []

/-- The `RobotsCache._cache` dictionary, keyed by `scheme://netloc`. -/
abbrev RobotsCacheT := List (List Char × RobotFileParser)

/-- Dictionary lookup in the robots cache. -/
def lookupKey (k : List Char) : RobotsCacheT → Option RobotFileParser
  | [] => none
  | (k2, rp) :: t => if k2 = k then some rp else lookupKey k t

/-- Dictionary assignment `cache[key] = rp`. -/
def setKey (k : List Char) (rp : RobotFileParser) : RobotsCacheT → RobotsCacheT
  | [] => [(k, rp)]
  | (k2, rp2) :: t => if k2 = k then (k, rp) :: t else (k2, rp2) :: setKey k rp t

/-- Observable side effects of the engine: robots.txt fetches (with their
fixed 5 second timeout), HTTP GETs of target URLs, the optional rate-delay
sleep and the backoff sleeps. -/
inductive Event where
  | policyFetch (url : List Char) (timeoutS : ℚ)
  | get (url : List Char)
  | rateSleep (d : ℚ)
  | backSleep (d : ℚ)
deriving DecidableEq

/-- Model of `RobotsCache.allowed` (source lines 172-194): parse the URL,
treat a missing scheme or host as allowed, consult the per-host cache,
fetch and parse `scheme://host/robots.txt` on a miss (one `policyFetch`
event), store the parser, and answer with `can_fetch`. -/
def RobotsCache.allowed (cache : RobotsCacheT) (net : List Char → RobotsNetResult)
    (url ua : List Char) : Bool × RobotsCacheT × List Event :=
  match urlSplit url with
  | none => (true, cache, [])
  | some (scheme, host, _) =>
    let key := scheme ++ str "://" ++ host
    match lookupKey key cache with
    | some rp => (canFetch rp ua url, cache, [])
    | none =>
      let robotsUrl := key ++ str "/robots.txt"
      let rp := parseNet (net robotsUrl)
      (canFetch rp ua url, setKey key rp cache, [Event.policyFetch robotsUrl 5])

/-- The default User-Agent header (source lines 44-47). -/
def DEFAULT_UA : List Char :=
  str "Mozilla/5.0 (X11; Linux x86_64) AppleWebKit/537.36 (KHTML, like Gecko) Chrome/124.0.0.0 Safari/537.36"

/-- Model of `ScraperConfig` (source lines 62-79), with the source's default
values; durations are rationals, the typo alias is the optional field. -/
structure ScraperConfig where
  concurrency : Nat := 8
  connect_timeout_s : ℚ := 5
  read_timeout_s : ℚ := 10
  total_timeout_s : ℚ := 20
  max_retries : Nat := 3
  backoff_base : ℚ := 1/2
  user_agents : List (List Char) := [DEFAULT_UA]
  obey_robots : Bool := true
  rate_delay_s : ℚ := 0
  output_csv : Option (List Char) := some (str "results.csv")
  normalize_whitespace : Bool := true
  busqueda_intensiva : Bool := false
  busqueda_intesiva : Option Bool := none
deriving DecidableEq

/-- Model of `Target` (source lines 52-59). -/
structure Target where
  name : List Char
  url_template : List Char
  item_selector : List Char
  fields : List (List Char × List Char)
deriving DecidableEq

/-- One attempt's network result inside `PersonScraper.fetch`: an HTTP
response, or one of the exception classes the source catches. -/
inductive HttpResult where
  | status (code : Nat) (contentType : List Char) (body : List Char)
  | timeout
  | clientError
  | otherError
deriving DecidableEq

/-- How one attempt ends, following the classification of lines 248-264:
retryable statuses raise and are caught, a non-HTML content type returns
`None` at once, any other response returns its body, and every caught
exception is retried. -/
inductive AttemptClass where
  | success (body : List Char)
  | nonHtml
  | retryable
deriving DecidableEq

/-- Classify one attempt's result exactly as the source's `try` body does. -/
def classify : HttpResult → AttemptClass
  | HttpResult.status c ct b =>
    if c ∈ [429, 500, 502, 503, 504] then AttemptClass.retryable
    else if ct ≠ [] ∧ isSub (str "text/html") ct = false then AttemptClass.nonHtml
    else AttemptClass.success b
  | HttpResult.timeout => AttemptClass.retryable
  | HttpResult.clientError => AttemptClass.retryable
  | HttpResult.otherError => AttemptClass.retryable

/-- The four distinct ways `PersonScraper.fetch` can return (the source
returns `Optional[str]`; the non-success tags record which return path was
taken). -/
inductive Outcome where
  | success (body : List Char)
  | denied
  | nonHtml
  | failed
deriving DecidableEq

/-- The delay computed by `sleep_backoff` (source lines 156-160), with the
`random.random()` draw passed in explicitly. -/
def sleep_backoff_delay (base : ℚ) (attempt : Nat) (r : ℚ) : ℚ :=
  base * 2 ^ (attempt - 1) * (7/10 + r * (6/10))

/-- The retry loop of `PersonScraper.fetch` (source lines 242-268).  The
first argument counts the iterations `attempt..max_retries` still to run
(`0` means the range is exhausted and the loop falls through to
`return None`); the second is the 1-based attempt number.  `resp` is the
network oracle per attempt and `rand` the `random.random()` draw used by
the backoff sleep after a given attempt. -/
def fetchGo (cfg : ScraperConfig) (url : List Char) (resp : Nat → HttpResult)
    (rand : Nat → ℚ) : Nat → Nat → Outcome × List Event
  | 0, _ => (Outcome.failed, [])
  | remaining + 1, attempt =>
    let pre : List Event :=
      if cfg.rate_delay_s ≠ 0 then [Event.rateSleep cfg.rate_delay_s] else []
    let evs := pre ++ [Event.get url]
    match classify (resp attempt) with
    | AttemptClass.success body => (Outcome.success body, evs)
    | AttemptClass.nonHtml => (Outcome.nonHtml, evs)
    | AttemptClass.retryable =>
      if remaining = 0 then (Outcome.failed, evs)
      else
        let d := sleep_backoff_delay cfg.backoff_base attempt (rand attempt)
        let rest := fetchGo cfg url resp rand remaining (attempt + 1)
        (rest.1, evs ++ Event.backSleep d :: rest.2)

/-- Model of `PersonScraper.fetch` (source lines 232-268): consult the
robots cache when `obey_robots` is set and return `denied` without any GET
on refusal; otherwise run the retry loop for attempts `1..max_retries`. -/
def PersonScraper.fetch (cfg : ScraperConfig) (cache : RobotsCacheT)
    (net : List Char → RobotsNetResult) (resp : Nat → HttpResult) (rand : Nat → ℚ)
    (url ua : List Char) : Outcome × List Event × RobotsCacheT :=
  if cfg.obey_robots then
    let res := RobotsCache.allowed cache net url ua
    if res.1 then
      let r := fetchGo cfg url resp rand cfg.max_retries 1
      (r.1, res.2.2 ++ r.2, res.2.1)
    else (Outcome.denied, res.2.2, res.2.1)
  else
    let r := fetchGo cfg url resp rand cfg.max_retries 1
    (r.1, r.2, cache)

/-- Is this event an HTTP GET of a target URL? -/
def isGetEvent : Event → Bool
  | Event.get _ => true
  | _ => false

/-- Is this event a robots.txt policy fetch? -/
def isPolicyEvent : Event → Bool
  | Event.policyFetch _ _ => true
  | _ => false

/-- Number of HTTP GETs of target URLs in a trace. -/
def countGets (evs : List Event) : Nat := evs.countP isGetEvent

/-- The backoff sleep durations of a trace, in order. -/
def backSleeps (evs : List Event) : List ℚ :=
  evs.filterMap fun e => match e with
    | Event.backSleep d => some d
    | _ => none

/-- Library model of a BeautifulSoup element: tag name, attributes, the
element's own text, and child elements.  A parsed document is the soup root
whose descendants are the document's elements. -/
inductive HtmlNode where
  | node (tag : List Char) (attrs : List (List Char × List Char)) (ownText : List Char)
      (children : List HtmlNode)

/-- Tag name of an element. -/
def HtmlNode.tag : HtmlNode → List Char
  | HtmlNode.node t _ _ _ => t

/-- Attribute list of an element. -/
def HtmlNode.attrs : HtmlNode → List (List Char × List Char)
  | HtmlNode.node _ a _ _ => a

/-- `has_attr`: does the element carry the attribute? -/
def HtmlNode.hasAttr (n : HtmlNode) (a : List Char) : Bool :=
  n.attrs.any fun kv => kv.1 == a

/-- `node[attr]`: the attribute's value (empty when absent). -/
def HtmlNode.attrVal (n : HtmlNode) (a : List Char) : List Char :=
  match n.attrs.find? (fun kv => kv.1 == a) with
  | some kv => kv.2
  | none => []

mutual
/-- All strict descendants of an element, in document order. -/
def descendants : HtmlNode → List HtmlNode
  | HtmlNode.node _ _ _ cs => descendantsList cs
/-- Descendants-or-self of a forest, in document order. -/
def descendantsList : List HtmlNode → List HtmlNode
  | [] => []
  | c :: cs => c :: descendants c ++ descendantsList cs
end

mutual
/-- The text fragments below an element, in document order. -/
def textFragments : HtmlNode → List (List Char)
  | HtmlNode.node _ _ t cs => t :: textFragmentsList cs
/-- The text fragments below a forest. -/
def textFragmentsList : List HtmlNode → List (List Char)
  | [] => []
  | c :: cs => textFragments c ++ textFragmentsList cs
end

/-- `get_text(strip=True)`: each fragment stripped, then joined. -/
def getText (n : HtmlNode) : List Char := ((textFragments n).map pyStrip).flatten

/-- Fueled worker for Python `str.split()` with no separator. -/
def splitWsGo : Nat → List Char → List (List Char)
  | 0, _ => []
  | _ + 1, [] => []
  | fuel + 1, s =>
    let s1 := s.dropWhile pyIsSpace
    match s1 with
    | [] => []
    | _ =>
      let w := s1.takeWhile fun c => !pyIsSpace c
      w :: splitWsGo fuel (s1.drop w.length)

/-- Python `str.split()`: whitespace-separated words, no empties. -/
def splitWs (s : List Char) : List (List Char) := splitWsGo s.length s

/-- Does an element match one selector of the restricted forms the source
supports: `.class`, `#id`, `tag[attr]` (or bare `[attr]`), bare tag name. -/
def matchesSelector (sel : List Char) (n : HtmlNode) : Bool :=
  match sel with
  | '.' :: cls => (splitWs (n.attrVal (str "class"))).contains cls
  | '#' :: idv => n.hasAttr (str "id") && n.attrVal (str "id") == idv
  | _ =>
    if '[' ∈ sel ∧ ']' ∈ sel then
      let tagPart := sel.takeWhile (· != '[')
      let rest := sel.drop (tagPart.length + 1)
      let attrPart := rest.takeWhile (· != ']')
      (tagPart == [] || n.tag == tagPart) && n.hasAttr attrPart
    else n.tag == sel

/-- `node.select_one(sel)`: first matching descendant in document order. -/
def selectOne (n : HtmlNode) (sel : List Char) : Option HtmlNode :=
  (descendants n).find? (matchesSelector sel)

/-- `node.find(name)`: first descendant with the given tag name. -/
def findTag (n : HtmlNode) (tagName : List Char) : Option HtmlNode :=
  (descendants n).find? fun d => d.tag == tagName

/-- The `found` computation of `selector_find` (source lines 110-125):
empty selector resolves to nothing; `.class`, `#id` and bracketed selectors
go through `select_one`; a bare tag name goes through `find`. -/
def resolveNode (node : HtmlNode) (selector : List Char) : Option HtmlNode :=
  if selector = [] then none
  else if selector.head? = some '.' then selectOne node selector
  else if selector.head? = some '#' then selectOne node selector
  else if '[' ∈ selector ∧ ']' ∈ selector then selectOne node selector
  else findTag node selector

/-- The value extraction of `selector_find` (source lines 127-134): `href`
if present, else `src`, else the stripped text. -/
def extractValue (f : HtmlNode) : List Char :=
  if f.hasAttr (str "href") then f.attrVal (str "href")
  else if f.hasAttr (str "src") then f.attrVal (str "src")
  else getText f

/-- Model of `selector_find` (source lines 110-134). -/
def selector_find (node : HtmlNode) (selector : List Char) : Option (List Char) :=
  (resolveNode node selector).map extractValue

/-- Fueled worker collapsing each whitespace run to one space
(`re.sub(r"\s+", " ", raw)`). -/
def collapseWsGo : Nat → List Char → List Char
  | 0, s => s
  | _ + 1, [] => []
  | fuel + 1, c :: t =>
    if pyIsSpace c then ' ' :: collapseWsGo fuel (t.dropWhile pyIsSpace)
    else c :: collapseWsGo fuel t

/-- `re.sub(r"\s+", " ", s)`. -/
def collapseWs (s : List Char) : List Char := collapseWsGo s.length s

/-- The whitespace normalization of `parse_items` (line 277):
`re.sub(r"\s+", " ", raw).strip()`. -/
def normWs (s : List Char) : List Char := pyStrip (collapseWs s)

/-- `soup.select(item_selector)`: every matching element of the document. -/
def selectAll (soup : HtmlNode) (sel : List Char) : List HtmlNode :=
  (descendants soup).filter (matchesSelector sel)

/-- Model of `PersonScraper.parse_items` (source lines 270-284): for every
item node, build the dict with `source` first and one entry per declared
field (whitespace-normalized when configured), then pass every value
through `csv_safe`. -/
def parse_items (cfg : ScraperConfig) (soup : HtmlNode) (target : Target) :
    List (List (List Char × List Char)) :=
  (selectAll soup target.item_selector).map fun node =>
    let base := (str "source", target.name) ::
      target.fields.map fun fs =>
        let raw := (selector_find node fs.2).getD []
        (fs.1, if cfg.normalize_whitespace then normWs raw else raw)
    base.map fun kv => (kv.1, csv_safe kv.2)

/-- The alias mapping of `PersonScraper.__init__` (source lines 199-203): a
config arriving with the misspelled legacy flag set to `True` gets the
correctly spelled flag switched on. -/
def scraperInit (cfg : ScraperConfig) : ScraperConfig :=
  if cfg.busqueda_intesiva = some true then { cfg with busqueda_intensiva := true } else cfg

/-- The per-target loop of `PersonScraper.search` (source lines 291-303):
build the URL (a `ValueError` from `build_url` propagates), rotate the
User-Agent in intensive mode, fetch, skip falsy bodies, parse items and
keep those with a truthy non-`source` value.  `docs` models
`BeautifulSoup(html, "html.parser")`; `resp`/`rand` are indexed by the
target's position; `uaStream` models the `random.choice` draws. -/
def searchGo (cfg : ScraperConfig) (q : List Char) (net : List Char → RobotsNetResult)
    (docs : List Char → HtmlNode) (resp : Nat → Nat → HttpResult) (rand : Nat → Nat → ℚ)
    (uaStream : Nat → List Char) :
    List Target → Nat → List Char → RobotsCacheT →
    Except (List Char) (List (List (List Char × List Char)) × List Event)
  | [], _, _, _ => Except.ok ([], [])
  | t :: ts, i, ua, cache =>
    match build_url t.url_template q with
    | Except.error e => Except.error e
    | Except.ok url =>
      let ua2 := if cfg.busqueda_intensiva then uaStream i else ua
      let r := PersonScraper.fetch cfg cache net (resp i) (rand i) url ua2
      let items :=
        match r.1 with
        | Outcome.success body =>
          if body = [] then []
          else
            (parse_items cfg (docs body) t).filter fun item =>
              item.any fun kv => !(kv.1 == str "source") && !(kv.2 == [])
        | _ => []
      match searchGo cfg q net docs resp rand uaStream ts (i + 1) ua2 r.2.2 with
      | Except.error e => Except.error e
      | Except.ok rest => Except.ok (items ++ rest.1, r.2.1 ++ rest.2)

/-- Model of `PersonScraper.search` (source lines 286-303): sanitize the
query first (failure aborts before any fetch), then run the target loop. -/
def PersonScraper.search (cfg : ScraperConfig) (targets : List Target) (q : List Char)
    (net : List Char → RobotsNetResult) (docs : List Char → HtmlNode)
    (resp : Nat → Nat → HttpResult) (rand : Nat → Nat → ℚ) (uaStream : Nat → List Char)
    (ua : List Char) (cache : RobotsCacheT) :
    Except (List Char) (List (List (List Char × List Char)) × List Event) :=
  match sanitize_query q with
  | Except.error e => Except.error e
  | Except.ok q2 => searchGo cfg q2 net docs resp rand uaStream targets 0 ua cache

/-- One concurrent caller of `RobotsCache.allowed`: its URL and agent. -/
structure AllowTask where
  url : List Char
  ua : List Char
deriving DecidableEq

/-- Where one concurrent `allowed` call stands: not yet run, suspended at
the `await session.get` of the robots document (the cache-miss path), or
returned. -/
inductive TaskPhase where
  | start
  | fetching (key : List Char) (robotsUrl : List Char)
  | finished (res : Bool)
deriving DecidableEq

/-- Shared state of `N` concurrent `allowed` callers: the tasks, each
task's phase, the shared `_cache` dictionary and the fetch events so far. -/
structure CacheRunSt where
  tasks : List AllowTask
  phases : List TaskPhase
  cache : RobotsCacheT
  events : List Event
deriving DecidableEq

/-- One cooperative step of task `i`, following the source's `allowed`: the
segment before the `await` reads the cache and either finishes (hit or
unparseable URL) or issues the robots GET and suspends; the segment after
the `await` parses, writes the shared cache and finishes. -/
def allowStep (net : List Char → RobotsNetResult) (st : CacheRunSt) (i : Nat) : CacheRunSt :=
  match st.tasks[i]?, st.phases[i]? with
  | some t, some TaskPhase.start =>
    match urlSplit t.url with
    | none => { st with phases := st.phases.set i (TaskPhase.finished true) }
    | some (scheme, host, _) =>
      let key := scheme ++ str "://" ++ host
      match lookupKey key st.cache with
      | some rp =>
        { st with phases := st.phases.set i (TaskPhase.finished (canFetch rp t.ua t.url)) }
      | none =>
        let robotsUrl := key ++ str "/robots.txt"
        { st with phases := st.phases.set i (TaskPhase.fetching key robotsUrl),
                  events := st.events ++ [Event.policyFetch robotsUrl 5] }
  | some t, some (TaskPhase.fetching key robotsUrl) =>
    let rp := parseNet (net robotsUrl)
    { st with cache := setKey key rp st.cache,
              phases := st.phases.set i (TaskPhase.finished (canFetch rp t.ua t.url)) }
  | _, _ => st

/-- Run a schedule (a list of task indices) over the shared state. -/
def runSched (net : List Char → RobotsNetResult) (st : CacheRunSt) (sched : List Nat) :
    CacheRunSt :=
  sched.foldl (allowStep net) st

/-- Initial shared state: every task still to run, empty cache. -/
def initCacheRun (tasks : List AllowTask) : CacheRunSt :=
  ⟨tasks, tasks.map fun _ => TaskPhase.start, [], []⟩

/-- Number of policy fetches of one robots URL in a trace. -/
def countPolicyFor (u : List Char) (evs : List Event) : Nat :=
  evs.countP fun e => e == Event.policyFetch u 5

/-- Sequential (single-threaded) composition of `allowed` calls, threading
the cache, as the async loop does when calls never interleave. -/
def runSeq (net : List Char → RobotsNetResult) :
    RobotsCacheT → List AllowTask → RobotsCacheT × List Event
  | cache, [] => (cache, [])
  | cache, t :: ts =>
    let r := RobotsCache.allowed cache net t.url t.ua
    let rest := runSeq net r.2.1 ts
    (rest.1, r.2.2 ++ rest.2)

/-- Invariant of the concurrent runs: a suspended task's robots URL belongs
to its key, and every cached parser is the parse of the network's answer
for its key's robots URL. -/
def cacheRunInv (net : List Char → RobotsNetResult) (st : CacheRunSt) : Prop :=
  (∀ (i : Nat) (k r : List Char),
    st.phases[i]? = some (TaskPhase.fetching k r) → r = k ++ str "/robots.txt") ∧
  (∀ k rp, lookupKey k st.cache = some rp → rp = parseNet (net (k ++ str "/robots.txt")))

/-- A robots parser denying every path to every agent, for concrete runs. -/
def denyAllRp : RobotFileParser := ⟨[], some ⟨[str "*"], [⟨false, str "/"⟩]⟩⟩

/-- A robots cache in which `https://example.com` denies everything. -/
def denyCache : RobotsCacheT := [(str "https://example.com", denyAllRp)]

/-- Looking up the key just assigned returns the assigned parser. -/
theorem lookupKey_setKey_self (k : List Char) (rp : RobotFileParser) :
    ∀ c : RobotsCacheT, lookupKey k (setKey k rp c) = some rp := by
  intro c
  induction c with
  | nil => simp [setKey, lookupKey]
  | cons h t ih =>
    obtain ⟨k2, rp2⟩ := h
    by_cases hk : k2 = k <;> simp [setKey, lookupKey, hk, ih]

/-- Every event emitted by `RobotsCache.allowed` is a policy fetch. -/
theorem allowed_events_policy (cache : RobotsCacheT) (net : List Char → RobotsNetResult)
    (url ua : List Char) :
    ∀ e ∈ (RobotsCache.allowed cache net url ua).2.2, isPolicyEvent e = true := by
  intro e he
  unfold RobotsCache.allowed at he
  split at he
  · simp at he
  · dsimp only [] at he
    split at he
    · simp at he
    · simp at he
      simp [he, isPolicyEvent]

/-- `RobotsCache.allowed` performs no target-URL GET. -/
theorem countGets_allowed (cache : RobotsCacheT) (net : List Char → RobotsNetResult)
    (url ua : List Char) :
    countGets (RobotsCache.allowed cache net url ua).2.2 = 0 := by
  rw [countGets, List.countP_eq_zero]
  intro e he
  have h := allowed_events_policy cache net url ua e he
  cases e <;> simp_all [isPolicyEvent, isGetEvent]

/-- `RobotsCache.allowed` performs no backoff sleep. -/
theorem backSleeps_allowed (cache : RobotsCacheT) (net : List Char → RobotsNetResult)
    (url ua : List Char) :
    backSleeps (RobotsCache.allowed cache net url ua).2.2 = [] := by
  rw [backSleeps, List.filterMap_eq_nil_iff]
  intro e he
  have h := allowed_events_policy cache net url ua e he
  cases e <;> simp_all [isPolicyEvent]

/-- `can_fetch` on the parse of the empty document allows everything. -/
theorem canFetch_parse_nil (ua url : List Char) :
    canFetch (RobotFileParser.parse []) ua url = true := rfl

/-- Traces distribute over concatenation: GET count. -/
theorem countGets_append (l1 l2 : List Event) :
    countGets (l1 ++ l2) = countGets l1 + countGets l2 := by
  simp [countGets, List.countP_append]

/-- Traces distribute over concatenation: backoff sleeps. -/
theorem backSleeps_append (l1 l2 : List Event) :
    backSleeps (l1 ++ l2) = backSleeps l1 ++ backSleeps l2 := by
  simp [backSleeps]

/-- A backoff-sleep event contributes no GET and exactly its duration. -/
theorem backSleep_cons_counts (d : ℚ) (l : List Event) :
    countGets (Event.backSleep d :: l) = countGets l ∧
    backSleeps (Event.backSleep d :: l) = d :: backSleeps l := by
  constructor <;> simp [countGets, backSleeps, List.countP_cons, isGetEvent]

/-- The events preceding the response of one attempt: exactly one GET and
no backoff sleep, whatever the rate-delay setting. -/
theorem preEvents_counts (cfg : ScraperConfig) (url : List Char) :
    countGets ((if cfg.rate_delay_s ≠ 0 then [Event.rateSleep cfg.rate_delay_s] else []) ++
      [Event.get url]) = 1 ∧
    backSleeps ((if cfg.rate_delay_s ≠ 0 then [Event.rateSleep cfg.rate_delay_s] else []) ++
      [Event.get url]) = [] := by
  constructor <;> (split <;> simp [countGets, backSleeps, List.countP_cons, isGetEvent])

/-- Unfolding of the retry loop at its last admissible attempt. -/
theorem fetchGo_retryable_one (cfg : ScraperConfig) (url : List Char) (resp : Nat → HttpResult)
    (rand : Nat → ℚ) (a : Nat) (h : classify (resp a) = AttemptClass.retryable) :
    fetchGo cfg url resp rand 1 a =
      (Outcome.failed,
        (if cfg.rate_delay_s ≠ 0 then [Event.rateSleep cfg.rate_delay_s] else []) ++
          [Event.get url]) := by
  simp [fetchGo, h]

/-- Unfolding of the retry loop at an attempt with retries left. -/
theorem fetchGo_retryable_step (cfg : ScraperConfig) (url : List Char) (resp : Nat → HttpResult)
    (rand : Nat → ℚ) (m a : Nat) (h : classify (resp a) = AttemptClass.retryable) :
    fetchGo cfg url resp rand (m + 2) a =
      ((fetchGo cfg url resp rand (m + 1) (a + 1)).1,
        ((if cfg.rate_delay_s ≠ 0 then [Event.rateSleep cfg.rate_delay_s] else []) ++
            [Event.get url]) ++
          Event.backSleep (sleep_backoff_delay cfg.backoff_base a (rand a)) ::
            (fetchGo cfg url resp rand (m + 1) (a + 1)).2) := by
  simp [fetchGo, h]

/-- When every attempt is retryable, the loop entered with `r` admissible
attempts at attempt number `a` fails, performs exactly `r` GETs and sleeps
exactly `r - 1` times, the sleep after attempt `a + i` having the backoff
formula's duration. -/
theorem fetchGo_retryable (cfg : ScraperConfig) (url : List Char) (resp : Nat → HttpResult)
    (rand : Nat → ℚ) (hresp : ∀ i, classify (resp i) = AttemptClass.retryable) :
    ∀ r a, (fetchGo cfg url resp rand r a).1 = Outcome.failed ∧
      countGets (fetchGo cfg url resp rand r a).2 = r ∧
      backSleeps (fetchGo cfg url resp rand r a).2 =
        (List.range (r - 1)).map
          fun i => sleep_backoff_delay cfg.backoff_base (a + i) (rand (a + i)) := by
  intro r
  induction r with
  | zero => intro a; exact ⟨rfl, rfl, rfl⟩
  | succ n ih =>
    intro a
    cases n with
    | zero =>
      rw [fetchGo_retryable_one cfg url resp rand a (hresp a)]
      exact ⟨rfl, (preEvents_counts cfg url).1, by rw [(preEvents_counts cfg url).2]; rfl⟩
    | succ m =>
      rw [fetchGo_retryable_step cfg url resp rand m a (hresp a)]
      obtain ⟨ih1, ih2, ih3⟩ := ih (a + 1)
      refine ⟨ih1, ?_, ?_⟩
      · rw [countGets_append, (preEvents_counts cfg url).1, (backSleep_cons_counts _ _).1, ih2]
        omega
      · rw [backSleeps_append, (preEvents_counts cfg url).2, (backSleep_cons_counts _ _).2, ih3]
        simp only [List.nil_append, Nat.add_sub_cancel, List.range_succ_eq_map, List.map_map,
          List.map_cons]
        refine congrArg₂ _ (by simp) ?_
        refine List.map_congr_left ?_
        intro i _
        have harg : a + 1 + i = a + (i + 1) := by omega
        simp [Function.comp, harg]

/-- C4: with `obey_robots` set and the policy denying the URL, `fetch`
returns the denied outcome at once: it performs no GET of the URL and the
only possible event is the policy-document fetch itself. -/
theorem c4_policy_denied_no_get (cfg : ScraperConfig) (cache : RobotsCacheT)
    (net : List Char → RobotsNetResult) (resp : Nat → HttpResult) (rand : Nat → ℚ)
    (url ua : List Char)
    (hobey : cfg.obey_robots = true)
    (hdeny : (RobotsCache.allowed cache net url ua).1 = false) :
    (PersonScraper.fetch cfg cache net resp rand url ua).1 = Outcome.denied ∧
    countGets (PersonScraper.fetch cfg cache net resp rand url ua).2.1 = 0 ∧
    ∀ e ∈ (PersonScraper.fetch cfg cache net resp rand url ua).2.1, isPolicyEvent e = true := by
  have hfetch : PersonScraper.fetch cfg cache net resp rand url ua =
      (Outcome.denied, (RobotsCache.allowed cache net url ua).2.2,
        (RobotsCache.allowed cache net url ua).2.1) := by
    simp [PersonScraper.fetch, hobey, hdeny]
  rw [hfetch]
  exact ⟨rfl, countGets_allowed cache net url ua, allowed_events_policy cache net url ua⟩

/-- Witness for C4: the default configuration, a cache denying
`https://example.com`, and a concrete URL under that host. -/
theorem c4_policy_denied_no_get_witness :
    ({} : ScraperConfig).obey_robots = true ∧
    (RobotsCache.allowed denyCache (fun _ => RobotsNetResult.netError)
      (str "https://example.com/people") DEFAULT_UA).1 = false ∧
    ((PersonScraper.fetch {} denyCache (fun _ => RobotsNetResult.netError)
        (fun _ => HttpResult.timeout) (fun _ => 0)
        (str "https://example.com/people") DEFAULT_UA).1 = Outcome.denied ∧
      countGets (PersonScraper.fetch {} denyCache (fun _ => RobotsNetResult.netError)
        (fun _ => HttpResult.timeout) (fun _ => 0)
        (str "https://example.com/people") DEFAULT_UA).2.1 = 0 ∧
      ∀ e ∈ (PersonScraper.fetch {} denyCache (fun _ => RobotsNetResult.netError)
        (fun _ => HttpResult.timeout) (fun _ => 0)
        (str "https://example.com/people") DEFAULT_UA).2.1, isPolicyEvent e = true) :=
  ⟨rfl, by decide, c4_policy_denied_no_get _ _ _ _ _ _ _ rfl (by decide)⟩

/-- C5: on the first query for a host (cache miss) the cache fetches exactly
`scheme://host/robots.txt` (one policy fetch, fixed 5 second timeout) and
caches the parse of the result; whenever that fetch fails or returns a
non-200 status the cached parser is the empty parse, which allows every URL
for every agent; and any query that hits the cache re-fetches nothing and
reuses the cached decision. -/
theorem c5_policy_cache (cache : RobotsCacheT) (net : List Char → RobotsNetResult)
    (url ua scheme host rest : List Char)
    (hsplit : urlSplit url = some (scheme, host, rest))
    (hmiss : lookupKey (scheme ++ str "://" ++ host) cache = none) :
    (RobotsCache.allowed cache net url ua).2.2 =
      [Event.policyFetch (scheme ++ str "://" ++ host ++ str "/robots.txt") 5] ∧
    lookupKey (scheme ++ str "://" ++ host) (RobotsCache.allowed cache net url ua).2.1 =
      some (parseNet (net (scheme ++ str "://" ++ host ++ str "/robots.txt"))) ∧
    ((∀ c t, net (scheme ++ str "://" ++ host ++ str "/robots.txt") =
        RobotsNetResult.status c t → c ≠ 200) →
      parseNet (net (scheme ++ str "://" ++ host ++ str "/robots.txt")) =
        RobotFileParser.parse [] ∧
      ∀ ua2 url2, canFetch (RobotFileParser.parse []) ua2 url2 = true) ∧
    (∀ cache2 url2 ua2 s2 h2 r2 rp, urlSplit url2 = some (s2, h2, r2) →
      lookupKey (s2 ++ str "://" ++ h2) cache2 = some rp →
      RobotsCache.allowed cache2 net url2 ua2 = (canFetch rp ua2 url2, cache2, [])) := by
  have hall : RobotsCache.allowed cache net url ua =
      (canFetch (parseNet (net (scheme ++ str "://" ++ host ++ str "/robots.txt"))) ua url,
        setKey (scheme ++ str "://" ++ host)
          (parseNet (net (scheme ++ str "://" ++ host ++ str "/robots.txt"))) cache,
        [Event.policyFetch (scheme ++ str "://" ++ host ++ str "/robots.txt") 5]) := by
    unfold RobotsCache.allowed
    rw [hsplit]
    dsimp only []
    split
    · rename_i rp hrp
      rw [hmiss] at hrp
      cases hrp
    · simp
  refine ⟨by rw [hall], by rw [hall]; exact lookupKey_setKey_self _ _ _, ?_, ?_⟩
  · intro hfail
    refine ⟨?_, fun ua2 url2 => canFetch_parse_nil ua2 url2⟩
    cases hnet : net (scheme ++ str "://" ++ host ++ str "/robots.txt") with
    | netError => rfl
    | status c t =>
      have hc := hfail c t hnet
      simp [parseNet, hc]
  · intro cache2 url2 ua2 s2 h2 r2 rp hs2 hl2
    unfold RobotsCache.allowed
    rw [hs2]
    dsimp only []
    split
    · rename_i rp2 hrp2
      rw [hl2] at hrp2
      cases hrp2
      rfl
    · rename_i hrp2
      rw [hl2] at hrp2
      cases hrp2

/-- Witness for C5: empty cache, unreachable robots.txt, concrete URL. -/
theorem c5_policy_cache_witness :
    urlSplit (str "https://example.com/a") = some (str "https", str "example.com", str "/a") ∧
    lookupKey (str "https" ++ str "://" ++ str "example.com") [] = none ∧
    (RobotsCache.allowed [] (fun _ => RobotsNetResult.netError)
        (str "https://example.com/a") DEFAULT_UA).2.2 =
      [Event.policyFetch (str "https" ++ str "://" ++ str "example.com" ++ str "/robots.txt") 5] ∧
    (parseNet RobotsNetResult.netError = RobotFileParser.parse [] ∧
      ∀ ua2 url2, canFetch (RobotFileParser.parse []) ua2 url2 = true) := by
  refine ⟨by decide, rfl, ?_, ?_⟩
  · exact (c5_policy_cache [] (fun _ => RobotsNetResult.netError) (str "https://example.com/a")
      DEFAULT_UA (str "https") (str "example.com") (str "/a") (by decide) rfl).1
  · exact (c5_policy_cache [] (fun _ => RobotsNetResult.netError) (str "https://example.com/a")
      DEFAULT_UA (str "https") (str "example.com") (str "/a") (by decide) rfl).2.2.1
      (fun c t h => by simp at h)

/-- C1 counterexample: with `maxRetries = 1` and every attempt returning
HTTP 503, the code performs one GET and zero backoff sleeps, not the
claimed `n + 1 = 2` GETs and `n = 1` sleeps. -/
theorem c1_counterexample :
    ¬ (countGets (PersonScraper.fetch { max_retries := 1, obey_robots := false } []
          (fun _ => RobotsNetResult.netError)
          (fun _ => HttpResult.status 503 (str "text/html") []) (fun _ => 0)
          (str "https://example.com/a") DEFAULT_UA).2.1 =
        ({ max_retries := 1, obey_robots := false } : ScraperConfig).max_retries + 1 ∧
      (backSleeps (PersonScraper.fetch { max_retries := 1, obey_robots := false } []
          (fun _ => RobotsNetResult.netError)
          (fun _ => HttpResult.status 503 (str "text/html") []) (fun _ => 0)
          (str "https://example.com/a") DEFAULT_UA).2.1).length =
        ({ max_retries := 1, obey_robots := false } : ScraperConfig).max_retries) := by
  decide

/-- C1 (amended): if the policy does not block the URL and every attempt is
retryable, `fetch` fails after exactly `maxRetries` GET attempts with
`maxRetries - 1` backoff sleeps, the sleep after attempt `a` lasting
`backoffBase * 2 ^ (a - 1)` scaled by the jitter factor
`0.7 + random * 0.6`, which lies in `[0.7, 1.3)` for draws in `[0, 1)`. -/
theorem c1_retry_budget (cfg : ScraperConfig) (cache : RobotsCacheT)
    (net : List Char → RobotsNetResult) (resp : Nat → HttpResult) (rand : Nat → ℚ)
    (url ua : List Char)
    (hallow : cfg.obey_robots = false ∨ (RobotsCache.allowed cache net url ua).1 = true)
    (hresp : ∀ i, classify (resp i) = AttemptClass.retryable) :
    (PersonScraper.fetch cfg cache net resp rand url ua).1 = Outcome.failed ∧
    countGets (PersonScraper.fetch cfg cache net resp rand url ua).2.1 = cfg.max_retries ∧
    backSleeps (PersonScraper.fetch cfg cache net resp rand url ua).2.1 =
      (List.range (cfg.max_retries - 1)).map
        (fun i => sleep_backoff_delay cfg.backoff_base (1 + i) (rand (1 + i))) ∧
    (∀ i, 0 ≤ rand i → rand i < 1 →
      7/10 ≤ 7/10 + rand i * (6/10) ∧ (7/10 + rand i * (6/10) : ℚ) < 13/10) := by
  obtain ⟨hg1, hg2, hg3⟩ := fetchGo_retryable cfg url resp rand hresp cfg.max_retries 1
  have hjit : ∀ i, 0 ≤ rand i → rand i < 1 →
      7/10 ≤ 7/10 + rand i * (6/10) ∧ (7/10 + rand i * (6/10) : ℚ) < 13/10 := by
    intro i h0 h1
    constructor
    · nlinarith
    · nlinarith
  by_cases hob : cfg.obey_robots = true
  · have hok : (RobotsCache.allowed cache net url ua).1 = true := by
      rcases hallow with h | h
      · rw [hob] at h; cases h
      · exact h
    have hfetch : PersonScraper.fetch cfg cache net resp rand url ua =
        ((fetchGo cfg url resp rand cfg.max_retries 1).1,
          (RobotsCache.allowed cache net url ua).2.2 ++
            (fetchGo cfg url resp rand cfg.max_retries 1).2,
          (RobotsCache.allowed cache net url ua).2.1) := by
      simp [PersonScraper.fetch, hob, hok]
    rw [hfetch]
    refine ⟨hg1, ?_, ?_, hjit⟩
    · rw [countGets_append, countGets_allowed, hg2, Nat.zero_add]
    · rw [backSleeps_append, backSleeps_allowed, hg3, List.nil_append]
  · have hob2 : cfg.obey_robots = false := by
      cases hcfg : cfg.obey_robots
      · rfl
      · exact absurd hcfg hob
    have hfetch : PersonScraper.fetch cfg cache net resp rand url ua =
        ((fetchGo cfg url resp rand cfg.max_retries 1).1,
          (fetchGo cfg url resp rand cfg.max_retries 1).2, cache) := by
      simp [PersonScraper.fetch, hob2]
    rw [hfetch]
    exact ⟨hg1, hg2, hg3, hjit⟩

/-- Witness for C1's amended theorem: `maxRetries = 2`, robots disabled,
every attempt an HTTP 503. -/
theorem c1_retry_budget_witness :
    (({ max_retries := 2, obey_robots := false } : ScraperConfig).obey_robots = false ∨
      (RobotsCache.allowed [] (fun _ => RobotsNetResult.netError)
        (str "https://example.com/a") DEFAULT_UA).1 = true) ∧
    (∀ i : Nat, classify ((fun _ => HttpResult.status 503 (str "text/html") []) i) =
      AttemptClass.retryable) ∧
    ((PersonScraper.fetch { max_retries := 2, obey_robots := false } []
        (fun _ => RobotsNetResult.netError)
        (fun _ => HttpResult.status 503 (str "text/html") []) (fun _ => 1/2)
        (str "https://example.com/a") DEFAULT_UA).1 = Outcome.failed ∧
      countGets (PersonScraper.fetch { max_retries := 2, obey_robots := false } []
        (fun _ => RobotsNetResult.netError)
        (fun _ => HttpResult.status 503 (str "text/html") []) (fun _ => 1/2)
        (str "https://example.com/a") DEFAULT_UA).2.1 =
        ({ max_retries := 2, obey_robots := false } : ScraperConfig).max_retries) :=
  ⟨Or.inl rfl, fun _ => rfl,
    (c1_retry_budget { max_retries := 2, obey_robots := false } []
      (fun _ => RobotsNetResult.netError)
      (fun _ => HttpResult.status 503 (str "text/html") []) (fun _ => 1/2)
      (str "https://example.com/a") DEFAULT_UA (Or.inl rfl) (fun _ => rfl)).1,
    (c1_retry_budget { max_retries := 2, obey_robots := false } []
      (fun _ => RobotsNetResult.netError)
      (fun _ => HttpResult.status 503 (str "text/html") []) (fun _ => 1/2)
      (str "https://example.com/a") DEFAULT_UA (Or.inl rfl) (fun _ => rfl)).2.1⟩

/-- C10: `build_url` raises `ValueError` (modelled as `Except.error`) for
every template string that does not contain the substring `{query}`. -/
theorem c10_build_url_rejects_bad_template (template query : List Char)
    (h : isSub (str "\x7bquery\x7d") template = false) :
    build_url template query = Except.error (str "Template inválida: " ++ template) := by
  simp [build_url, h]

/-- Witness for C10 at a concrete placeholder-free template. -/
theorem c10_build_url_rejects_bad_template_witness :
    isSub (str "\x7bquery\x7d") (str "https://example.com/search") = false ∧
    build_url (str "https://example.com/search") (str "ana") =
      Except.error (str "Template inválida: " ++ str "https://example.com/search") :=
  ⟨by decide, c10_build_url_rejects_bad_template _ _ (by decide)⟩

/-- C3 counterexample: on the one-space query the code raises (the string is
empty after trimming whitespace), yet the query is not empty after trimming
control characters, so the claimed "exactly when" equivalence fails. -/
theorem c3_counterexample :
    (∃ e, sanitize_query (str " ") = Except.error e) ∧ specTrimControl (str " ") ≠ [] :=
  ⟨⟨str "query vacío", rfl⟩, by decide⟩

/-- C3 (amended): `sanitize_query` fails exactly when the query is empty
after trimming whitespace; otherwise it returns the whitespace-stripped
query truncated to 200 characters with control characters replaced by
spaces, so the result never exceeds 200 characters; and on a failing query
the whole search errors out before reaching any target. -/
theorem c3_sanitize_query_spec (q : List Char) :
    ((∃ e, sanitize_query q = Except.error e) ↔ pyStrip q = []) ∧
    (pyStrip q ≠ [] →
      sanitize_query q =
        Except.ok (((pyStrip q).take 200).map fun c => if isCtrlChar c then ' ' else c)) ∧
    (∀ r, sanitize_query q = Except.ok r → r.length ≤ 200) ∧
    (∀ cfg targets net docs resp rand uaStream ua cache,
      pyStrip q = [] →
      PersonScraper.search cfg targets q net docs resp rand uaStream ua cache =
        Except.error (str "query vacío")) := by
  by_cases h : pyStrip q = []
  · refine ⟨⟨fun _ => h, fun _ => ⟨str "query vacío", by simp [sanitize_query, h]⟩⟩,
      fun hc => absurd h hc, ?_,
      fun cfg targets net docs resp rand uaStream ua cache _ => by
        simp [PersonScraper.search, sanitize_query, h]⟩
    intro r hr
    simp [sanitize_query, h] at hr
  · have hok : sanitize_query q =
        Except.ok (((pyStrip q).take 200).map fun c => if isCtrlChar c then ' ' else c) := by
      by_cases hl : 200 < (pyStrip q).length
      · simp [sanitize_query, h, hl]
      · have : (pyStrip q).take 200 = pyStrip q :=
          List.take_of_length_le (by omega)
        simp [sanitize_query, h, hl, this]
    refine ⟨⟨?_, fun he => absurd he h⟩, fun _ => hok, ?_,
      fun cfg targets net docs resp rand uaStream ua cache hq => absurd hq h⟩
    · rintro ⟨e, he⟩
      rw [hok] at he
      cases he
    · intro r hr
      rw [hok] at hr
      cases hr
      have := List.length_take 200 (pyStrip q)
      simp only [List.length_map]
      omega

/-- Witness for C3's amended theorem at a concrete 250-character query. -/
theorem c3_sanitize_query_spec_witness :
    pyStrip (List.replicate 250 'a') ≠ [] ∧
    sanitize_query (List.replicate 250 'a') =
      Except.ok (((pyStrip (List.replicate 250 'a')).take 200).map
        fun c => if isCtrlChar c then ' ' else c) :=
  ⟨by decide, (c3_sanitize_query_spec _).2.1 (by decide)⟩

/-- C2: evaluation of `build_url` at a template of the exact form the claim
singles out.  The query `a b` is substituted raw (the space survives), while
the encoder the function's own documentation promises would have produced
`q=a+b`. -/
theorem c2_raw_substitution_on_q_template :
    build_url (str "https://example.com/search?q=\x7bquery\x7d") (str "a b") =
      Except.ok (str "https://example.com/search?q=a b") ∧
    urlencodeQ (str "a b") = str "q=a+b" :=
  ⟨rfl, by decide⟩

/-- `csv_safe` output never again triggers the prefix rule. -/
theorem csv_safe_idem (v : List Char) : csv_safe (csv_safe v) = csv_safe v := by
  have hq : singleQuote ∉ SAFE_CSV_PREFIXES := by decide
  cases v with
  | nil => rfl
  | cons c r =>
    by_cases h : c ∈ SAFE_CSV_PREFIXES <;> simp [csv_safe, h, hq]

/-- C6: `csv_safe` prefixes one single quote exactly when the first
character is `+`, `-`, `=`, `@` or TAB, returns every other value
unchanged, and `parse_items` passes every produced value (the `source`
column included) through it for every configuration, so every value of
every produced item is already `csv_safe`-fixed. -/
theorem c6_csv_sanitization (t : List Char) :
    (csv_safe t = singleQuote :: t ↔ ∃ c r, t = c :: r ∧ c ∈ SAFE_CSV_PREFIXES) ∧
    ((∀ c r, t = c :: r → c ∉ SAFE_CSV_PREFIXES) → csv_safe t = t) ∧
    (∀ cfg soup tgt item kv, item ∈ parse_items cfg soup tgt → kv ∈ item →
      csv_safe kv.2 = kv.2) := by
  refine ⟨?_, ?_, ?_⟩
  · constructor
    · intro h
      cases t with
      | nil => cases h
      | cons c r =>
        by_cases hc : c ∈ SAFE_CSV_PREFIXES
        · exact ⟨c, r, rfl, hc⟩
        · rw [csv_safe, if_neg hc] at h
          have := congrArg List.length h
          simp at this
    · rintro ⟨c, r, rfl, hc⟩
      rw [csv_safe, if_pos hc]
  · intro h
    cases t with
    | nil => rfl
    | cons c r => rw [csv_safe, if_neg (h c r rfl)]
  · intro cfg soup tgt item kv hitem hkv
    simp only [parse_items, List.mem_map] at hitem
    obtain ⟨node, hnode, hitemeq⟩ := hitem
    subst hitemeq
    simp only [List.mem_map] at hkv
    obtain ⟨kv0, hkv0, hkveq⟩ := hkv
    subst hkveq
    exact csv_safe_idem kv0.2

/-- Witness for C6: a one-item document whose link field starts with `=`;
the produced value carries the leading single quote and is `csv_safe`-fixed. -/
theorem c6_csv_sanitization_witness :
    ([(str "source", str "T"), (str "link", singleQuote :: str "=HYPERLINK(x)")] ∈
      parse_items {}
        (HtmlNode.node (str "[document]") [] []
          [HtmlNode.node (str "div") [(str "class", str "result")] []
            [HtmlNode.node (str "a") [(str "href", str "=HYPERLINK(x)")] (str "Bob") []]])
        ⟨str "T", str "u", str ".result", [(str "link", str "a[href]")]⟩) ∧
    ((str "link", singleQuote :: str "=HYPERLINK(x)") ∈
      [(str "source", str "T"), (str "link", singleQuote :: str "=HYPERLINK(x)")]) ∧
    csv_safe (str "link", singleQuote :: str "=HYPERLINK(x)").2 =
      (str "link", singleQuote :: str "=HYPERLINK(x)").2 :=
  ⟨by decide, by decide,
    (c6_csv_sanitization (str "x")).2.2 {}
      (HtmlNode.node (str "[document]") [] []
        [HtmlNode.node (str "div") [(str "class", str "result")] []
          [HtmlNode.node (str "a") [(str "href", str "=HYPERLINK(x)")] (str "Bob") []]])
      ⟨str "T", str "u", str ".result", [(str "link", str "a[href]")]⟩
      [(str "source", str "T"), (str "link", singleQuote :: str "=HYPERLINK(x)")]
      (str "link", singleQuote :: str "=HYPERLINK(x)")
      (by decide) (by decide)⟩

/-- C7: once a field selector resolves to a node, the extracted value is the
node's `href` attribute if present, else its `src` attribute if present,
else its stripped text; and with `normalize_whitespace` enabled every item
value produced by `parse_items` is the `csv_safe` of the
whitespace-normalized extraction. -/
theorem c7_selector_precedence (node : HtmlNode) (sel : List Char) (f : HtmlNode)
    (hres : resolveNode node sel = some f) :
    selector_find node sel = some (extractValue f) ∧
    (f.hasAttr (str "href") = true → extractValue f = f.attrVal (str "href")) ∧
    (f.hasAttr (str "href") = false → f.hasAttr (str "src") = true →
      extractValue f = f.attrVal (str "src")) ∧
    (f.hasAttr (str "href") = false → f.hasAttr (str "src") = false →
      extractValue f = getText f) ∧
    (∀ cfg soup tgt, cfg.normalize_whitespace = true →
      parse_items cfg soup tgt =
        (selectAll soup tgt.item_selector).map fun n =>
          (str "source", csv_safe tgt.name) ::
            tgt.fields.map fun fs =>
              (fs.1, csv_safe (normWs ((selector_find n fs.2).getD [])))) := by
  refine ⟨by simp [selector_find, hres], ?_, ?_, ?_, ?_⟩
  · intro h
    simp [extractValue, h]
  · intro h1 h2
    simp [extractValue, h1, h2]
  · intro h1 h2
    simp [extractValue, h1, h2]
  · intro cfg soup tgt hn
    simp [parse_items, hn, List.map_map, Function.comp_def]

/-- Witness for C7: a bare-tag selector resolving to an anchor with `href`. -/
theorem c7_selector_precedence_witness :
    resolveNode
        (HtmlNode.node (str "div") [] []
          [HtmlNode.node (str "a") [(str "href", str "/p")] (str "x") []])
        (str "a") =
      some (HtmlNode.node (str "a") [(str "href", str "/p")] (str "x") []) ∧
    selector_find
        (HtmlNode.node (str "div") [] []
          [HtmlNode.node (str "a") [(str "href", str "/p")] (str "x") []])
        (str "a") =
      some (extractValue (HtmlNode.node (str "a") [(str "href", str "/p")] (str "x") [])) ∧
    extractValue (HtmlNode.node (str "a") [(str "href", str "/p")] (str "x") []) =
      (HtmlNode.node (str "a") [(str "href", str "/p")] (str "x") []).attrVal (str "href") :=
  ⟨rfl,
    (c7_selector_precedence
      (HtmlNode.node (str "div") [] []
        [HtmlNode.node (str "a") [(str "href", str "/p")] (str "x") []])
      (str "a")
      (HtmlNode.node (str "a") [(str "href", str "/p")] (str "x") []) rfl).1,
    (c7_selector_precedence
      (HtmlNode.node (str "div") [] []
        [HtmlNode.node (str "a") [(str "href", str "/p")] (str "x") []])
      (str "a")
      (HtmlNode.node (str "a") [(str "href", str "/p")] (str "x") []) rfl).2.1 rfl⟩

/-- The retry loop never reads the misspelled alias field. -/
theorem fetchGo_alias_inv (cfg : ScraperConfig) (x : Option Bool) (url : List Char)
    (resp : Nat → HttpResult) (rand : Nat → ℚ) :
    ∀ r a, fetchGo { cfg with busqueda_intesiva := x } url resp rand r a =
      fetchGo cfg url resp rand r a := by
  intro r
  induction r with
  | zero => intro a; rfl
  | succ n ih =>
    intro a
    simp only [fetchGo]
    cases classify (resp a) <;> simp [ih]

/-- `fetch` never reads the misspelled alias field. -/
theorem fetch_alias_inv (cfg : ScraperConfig) (x : Option Bool) (cache : RobotsCacheT)
    (net : List Char → RobotsNetResult) (resp : Nat → HttpResult) (rand : Nat → ℚ)
    (url ua : List Char) :
    PersonScraper.fetch { cfg with busqueda_intesiva := x } cache net resp rand url ua =
      PersonScraper.fetch cfg cache net resp rand url ua := by
  simp only [PersonScraper.fetch, fetchGo_alias_inv]

/-- `parse_items` never reads the misspelled alias field. -/
theorem parse_items_alias_inv (cfg : ScraperConfig) (x : Option Bool) (soup : HtmlNode)
    (tgt : Target) :
    parse_items { cfg with busqueda_intesiva := x } soup tgt = parse_items cfg soup tgt := rfl

/-- The target loop never reads the misspelled alias field. -/
theorem searchGo_alias_inv (cfg : ScraperConfig) (x : Option Bool) (q : List Char)
    (net : List Char → RobotsNetResult) (docs : List Char → HtmlNode)
    (resp : Nat → Nat → HttpResult) (rand : Nat → Nat → ℚ) (uaStream : Nat → List Char) :
    ∀ (ts : List Target) (i : Nat) (ua : List Char) (cache : RobotsCacheT),
      searchGo { cfg with busqueda_intesiva := x } q net docs resp rand uaStream ts i ua cache =
        searchGo cfg q net docs resp rand uaStream ts i ua cache := by
  intro ts
  induction ts with
  | nil => intro i ua cache; rfl
  | cons t ts ih =>
    intro i ua cache
    simp only [searchGo]
    cases hb : build_url t.url_template q with
    | error e => rfl
    | ok url => simp only [fetch_alias_inv, parse_items_alias_inv, ih]

/-- `search` never reads the misspelled alias field. -/
theorem search_alias_inv (cfg : ScraperConfig) (x : Option Bool) (targets : List Target)
    (q : List Char) (net : List Char → RobotsNetResult) (docs : List Char → HtmlNode)
    (resp : Nat → Nat → HttpResult) (rand : Nat → Nat → ℚ) (uaStream : Nat → List Char)
    (ua : List Char) (cache : RobotsCacheT) :
    PersonScraper.search { cfg with busqueda_intesiva := x } targets q net docs resp rand
        uaStream ua cache =
      PersonScraper.search cfg targets q net docs resp rand uaStream ua cache := by
  simp only [PersonScraper.search]
  cases hq : sanitize_query q with
  | error e => rfl
  | ok q2 => exact searchGo_alias_inv cfg x q2 net docs resp rand uaStream targets 0 ua cache

/-- C9: the constructor maps the misspelled legacy flag onto the correct
one, and a scraper configured through the misspelled flag behaves exactly
like one configured through the correctly spelled flag, for every query,
target list, network behavior and cache. -/
theorem c9_alias_equivalence (cfg : ScraperConfig) (targets : List Target) (q ua : List Char)
    (cache : RobotsCacheT) (net : List Char → RobotsNetResult) (docs : List Char → HtmlNode)
    (resp : Nat → Nat → HttpResult) (rand : Nat → Nat → ℚ) (uaStream : Nat → List Char) :
    (scraperInit { cfg with busqueda_intesiva := some true }).busqueda_intensiva = true ∧
    PersonScraper.search (scraperInit { cfg with busqueda_intesiva := some true })
        targets q net docs resp rand uaStream ua cache =
      PersonScraper.search (scraperInit { cfg with busqueda_intensiva := true })
        targets q net docs resp rand uaStream ua cache := by
  constructor
  · rfl
  · have h2 : scraperInit { cfg with busqueda_intensiva := true } =
        { cfg with busqueda_intensiva := true } := by
      unfold scraperInit
      split <;> rfl
    rw [h2]
    exact search_alias_inv { cfg with busqueda_intensiva := true } (some true) targets q net
      docs resp rand uaStream ua cache

/-- C8 counterexample: two concurrent callers for the same host, both
suspended at the robots GET before either writes the cache, fetch the same
robots.txt twice — the claimed "at most one fetch per host under concurrent
callers" fails on this interleaving. -/
theorem c8_counterexample :
    ¬ (countPolicyFor (str "https://example.com/robots.txt")
        (runSched (fun _ => RobotsNetResult.netError)
          (initCacheRun [⟨str "https://example.com/a", str "UA"⟩,
            ⟨str "https://example.com/a", str "UA"⟩])
          [0, 1, 0, 1]).events ≤ 1) := by
  decide

/-- Lookup through a dictionary assignment. -/
theorem lookupKey_setKey (k k2 : List Char) (rp : RobotFileParser) :
    ∀ c : RobotsCacheT,
      lookupKey k2 (setKey k rp c) = if k = k2 then some rp else lookupKey k2 c := by
  intro c
  induction c with
  | nil => by_cases h : k = k2 <;> simp [setKey, lookupKey, h]
  | cons p t ih =>
    obtain ⟨k3, rp3⟩ := p
    by_cases h3 : k3 = k
    · subst h3
      by_cases h2 : k3 = k2 <;> simp [setKey, lookupKey, h2]
    · by_cases h2 : k3 = k2
      · subst h2
        have : k ≠ k3 := fun he => h3 he.symm
        simp [setKey, lookupKey, h3, this, ih]
      · simp [setKey, lookupKey, h3, h2, ih]

/-- `RobotsCache.allowed` either emits nothing and leaves the cache alone,
or emits exactly one robots fetch for a key absent from the cache and
stores that key's parsed answer. -/
theorem allowed_cases (cache : RobotsCacheT) (net : List Char → RobotsNetResult)
    (url ua : List Char) :
    ((RobotsCache.allowed cache net url ua).2.2 = [] ∧
      (RobotsCache.allowed cache net url ua).2.1 = cache) ∨
    (∃ k, (RobotsCache.allowed cache net url ua).2.2 =
        [Event.policyFetch (k ++ str "/robots.txt") 5] ∧
      lookupKey k cache = none ∧
      (RobotsCache.allowed cache net url ua).2.1 =
        setKey k (parseNet (net (k ++ str "/robots.txt"))) cache) := by
  unfold RobotsCache.allowed
  split
  · exact Or.inl ⟨rfl, rfl⟩
  · dsimp only []
    split
    · exact Or.inl ⟨rfl, rfl⟩
    · rename_i hmiss
      exact Or.inr ⟨_, rfl, hmiss, rfl⟩

/-- Counting a singleton policy-fetch trace. -/
theorem countPolicyFor_single (u v : List Char) :
    countPolicyFor u [Event.policyFetch v 5] = if v = u then 1 else 0 := by
  by_cases h : v = u <;> simp [countPolicyFor, List.countP_cons, h]

/-- Sequentially composed `allowed` calls fetch each robots URL at most
once, and never again once the key is cached. -/
theorem runSeq_policy_single (net : List Char → RobotsNetResult) (key : List Char) :
    ∀ (qs : List AllowTask) (cache : RobotsCacheT),
      (lookupKey key cache ≠ none →
        countPolicyFor (key ++ str "/robots.txt") (runSeq net cache qs).2 = 0) ∧
      countPolicyFor (key ++ str "/robots.txt") (runSeq net cache qs).2 ≤ 1 := by
  intro qs
  induction qs with
  | nil => intro cache; refine ⟨fun _ => rfl, by simp [runSeq, countPolicyFor]⟩
  | cons t ts ih =>
    intro cache
    have hrun : runSeq net cache (t :: ts) =
        ((runSeq net (RobotsCache.allowed cache net t.url t.ua).2.1 ts).1,
          (RobotsCache.allowed cache net t.url t.ua).2.2 ++
            (runSeq net (RobotsCache.allowed cache net t.url t.ua).2.1 ts).2) := rfl
    obtain ⟨ihz, ihle⟩ := ih (RobotsCache.allowed cache net t.url t.ua).2.1
    rcases allowed_cases cache net t.url t.ua with ⟨hev, hcache⟩ | ⟨k, hev, hmiss, hcache⟩
    · rw [hrun, hev]
      constructor
      · intro hk
        simp only [List.nil_append, countPolicyFor, List.countP_append] at *
        exact ihz (by rw [hcache]; exact hk)
      · simpa using ihle
    · rw [hrun, hev]
      have hcached : lookupKey k (RobotsCache.allowed cache net t.url t.ua).2.1 ≠ none := by
        rw [hcache, lookupKey_setKey, if_pos rfl]
        exact fun h => by cases h
      constructor
      · intro hk
        by_cases hkk : k = key
        · subst hkk
          exact absurd hmiss hk
        · have hk2 : lookupKey key (RobotsCache.allowed cache net t.url t.ua).2.1 ≠ none := by
            rw [hcache, lookupKey_setKey, if_neg hkk]
            exact hk
          simp only [countPolicyFor, List.countP_append] at *
          have hsingle : countPolicyFor (key ++ str "/robots.txt")
              [Event.policyFetch (k ++ str "/robots.txt") 5] = 0 := by
            rw [countPolicyFor_single]
            have : k ++ str "/robots.txt" ≠ key ++ str "/robots.txt" :=
              fun h => hkk (List.append_cancel_right h)
            rw [if_neg this]
          simp only [countPolicyFor] at hsingle
          rw [hsingle, ihz hk2]
      · by_cases hkk : k = key
        · subst hkk
          have h0 := ihz hcached
          simp only [countPolicyFor, List.countP_append] at *
          have hsingle : countPolicyFor (k ++ str "/robots.txt")
              [Event.policyFetch (k ++ str "/robots.txt") 5] = 1 := by
            rw [countPolicyFor_single, if_pos rfl]
          simp only [countPolicyFor] at hsingle
          rw [hsingle, h0]
        · have hsingle : countPolicyFor (key ++ str "/robots.txt")
              [Event.policyFetch (k ++ str "/robots.txt") 5] = 0 := by
            rw [countPolicyFor_single]
            have : k ++ str "/robots.txt" ≠ key ++ str "/robots.txt" :=
              fun h => hkk (List.append_cancel_right h)
            rw [if_neg this]
          simp only [countPolicyFor, List.countP_append] at *
          rw [hsingle]
          simpa using ihle

/-- One cooperative step preserves the run invariant. -/
theorem allowStep_inv (net : List Char → RobotsNetResult) (st : CacheRunSt) (i : Nat)
    (h : cacheRunInv net st) : cacheRunInv net (allowStep net st i) := by
  obtain ⟨h1, h2⟩ := h
  unfold allowStep
  split
  · -- start phase, URL split
    split
    · refine ⟨?_, h2⟩
      intro j k r hj
      rw [List.getElem?_set] at hj
      by_cases hij : i = j
      · rw [if_pos hij] at hj
        split at hj <;> simp at hj
      · rw [if_neg hij] at hj
        exact h1 j k r hj
    · dsimp only []
      split
      · refine ⟨?_, h2⟩
        intro j k r hj
        rw [List.getElem?_set] at hj
        by_cases hij : i = j
        · rw [if_pos hij] at hj
          split at hj <;> simp at hj
        · rw [if_neg hij] at hj
          exact h1 j k r hj
      · refine ⟨?_, h2⟩
        intro j k r hj
        rw [List.getElem?_set] at hj
        by_cases hij : i = j
        · rw [if_pos hij] at hj
          split at hj
          · cases hj
            rfl
          · cases hj
        · rw [if_neg hij] at hj
          exact h1 j k r hj
  · rename_i t key robotsUrl ht hp
    have hkr : robotsUrl = key ++ str "/robots.txt" := h1 i key robotsUrl hp
    constructor
    · intro j k r hj
      rw [List.getElem?_set] at hj
      by_cases hij : i = j
      · rw [if_pos hij] at hj
        split at hj <;> simp at hj
      · rw [if_neg hij] at hj
        exact h1 j k r hj
    · intro k2 rp2 hl
      rw [lookupKey_setKey] at hl
      by_cases hk2 : key = k2
      · subst hk2
        rw [if_pos rfl] at hl
        cases hl
        rw [hkr]
      · rw [if_neg hk2] at hl
        exact h2 k2 rp2 hl
  · exact ⟨h1, h2⟩

/-- Any schedule preserves the run invariant. -/
theorem runSched_inv (net : List Char → RobotsNetResult) :
    ∀ (sched : List Nat) (st : CacheRunSt),
      cacheRunInv net st → cacheRunInv net (runSched net st sched) := by
  intro sched
  induction sched with
  | nil => intro st h; exact h
  | cons j js ih => intro st h; exact ih _ (allowStep_inv net st j h)

/-- The initial state satisfies the run invariant. -/
theorem initCacheRun_inv (net : List Char → RobotsNetResult) (tasks : List AllowTask) :
    cacheRunInv net (initCacheRun tasks) := by
  constructor
  · intro i k r hj
    simp only [initCacheRun, List.getElem?_map] at hj
    cases tasks[i]? <;> simp at hj
  · intro k rp hl
    simp [initCacheRun, lookupKey] at hl

/-- C8 (amended): when `allowed` calls run sequentially (no interleaving),
each robots URL is fetched at most once per run; under arbitrary
interleavings duplicate fetches can occur, but the shared cache is never
corrupted: every cache entry is the parse of the network's answer for its
own key's robots URL. -/
theorem c8_single_flight (net : List Char → RobotsNetResult) :
    (∀ (qs : List AllowTask) (key : List Char),
      countPolicyFor (key ++ str "/robots.txt") (runSeq net [] qs).2 ≤ 1) ∧
    (∀ (tasks : List AllowTask) (sched : List Nat) (key : List Char) (rp : RobotFileParser),
      lookupKey key (runSched net (initCacheRun tasks) sched).cache = some rp →
      rp = parseNet (net (key ++ str "/robots.txt"))) := by
  constructor
  · intro qs key
    exact (runSeq_policy_single net key qs []).2
  · intro tasks sched key rp hl
    exact (runSched_inv net sched (initCacheRun tasks) (initCacheRun_inv net tasks)).2 key rp hl

/-- Witness for C8's amended theorem: the duplicated-fetch interleaving of
the counterexample still leaves a well-formed cache entry. -/
theorem c8_single_flight_witness :
    lookupKey (str "https://example.com")
        (runSched (fun _ => RobotsNetResult.netError)
          (initCacheRun [⟨str "https://example.com/a", str "UA"⟩,
            ⟨str "https://example.com/a", str "UA"⟩]) [0, 1, 0, 1]).cache =
      some (RobotFileParser.parse []) ∧
    (RobotFileParser.parse [] : RobotFileParser) =
      parseNet ((fun _ => RobotsNetResult.netError)
        (str "https://example.com" ++ str "/robots.txt")) :=
  ⟨by decide,
    (c8_single_flight (fun _ => RobotsNetResult.netError)).2
      [⟨str "https://example.com/a", str "UA"⟩, ⟨str "https://example.com/a", str "UA"⟩]
      [0, 1, 0, 1] (str "https://example.com") (RobotFileParser.parse []) (by decide)⟩

end DataLab
